import Mathlib

/-!
Verification of the barcode normalization and product-matching engine of the
pharmacy expiry-tracker application: GS1 Application-Identifier extraction
(`parseGS1`, `convertToParenthesized`), expiry decoding (`parseExpiryDate`,
`calculateExpiryStatus`), catalog index construction (`buildMasterIndex`) and
the multi-tier product matcher (`matchProduct`).

Modelling conventions:
* JS strings are Lean `String`s; all internal work happens on `List Char`.
* `null`/`undefined` arguments are `Option.none`.
* Calendar dates are modelled as epoch-day counts (proleptic Gregorian,
  matching the JS `Date` normalization rules for out-of-range fields);
  both "today" and the expiry are midnight-truncated, so the millisecond
  ceil-division of the source computes exactly the day difference.
-/

namespace HybridTrack

/-- The ECMAScript whitespace set recognised by `String.prototype.trim`. -/
def isJsWs (c : Char) : Bool :=
  c == ' ' || c == '\t' || c == '\n' || c == '\r' ||
  c.toNat == 11 || c.toNat == 12 || c.toNat == 0xA0 || c.toNat == 0x1680 ||
  (0x2000 ≤ c.toNat && c.toNat ≤ 0x200A) ||
  c.toNat == 0x2028 || c.toNat == 0x2029 || c.toNat == 0x202F ||
  c.toNat == 0x205F || c.toNat == 0x3000 || c.toNat == 0xFEFF

/-- JS `.trim()`: drop whitespace from both ends. -/
def jsTrimList (l : List Char) : List Char :=
  ((l.dropWhile isJsWs).reverse.dropWhile isJsWs).reverse

/-- ASCII group separator `\x1d`. -/
def gsChar : Char := Char.ofNat 29

/-- Digits-only cleanup, embedding the JS `replace(/\D/g, '')`. -/
def digitsOf (s : String) : String := String.mk (s.toList.filter Char.isDigit)

/-- Left padding with `'0'`, embedding the JS `padStart(n, '0')`. -/
def padList (l : List Char) (n : Nat) : List Char :=
  List.replicate (n - l.length) '0' ++ l

def padStartStr (s : String) (n : Nat) : String := String.mk (padList s.toList n)

/-- JS `replace(/^0+/, '')`. -/
def stripLeadingZerosStr (s : String) : String :=
  String.mk (s.toList.dropWhile (fun c => c == '0'))

/-- JS `slice(-n)`: the last `n` characters (whole string when shorter). -/
def lastNStr (s : String) (n : Nat) : String :=
  String.mk (s.toList.drop (s.toList.length - n))

/-- Decimal value of a digit string (total; used only on digit characters). -/
def natOfDigits (l : List Char) : Nat :=
  l.foldl (fun a c => a * 10 + (c.toNat - 48)) 0

/-- JS `String(n).padStart(2, '0')`. -/
def pad2 (n : Nat) : List Char := padList (toString n).toList 2

/-- Gregorian leap-year rule (as implemented by the JS `Date`). -/
def isLeapYear (y : Nat) : Bool :=
  y % 4 == 0 && (y % 100 != 0 || y % 400 == 0)

/-- Day count of the zero-based absolute month `t` (year `t / 12`,
month index `t % 12`); embeds `new Date(year, month, 0).getDate()`
at absolute month `t + 1`. -/
def jsDaysInMonthAbs (t : Nat) : Nat :=
  let y := t / 12
  let m := t % 12
  if m = 1 then (if isLeapYear y then 29 else 28)
  else if m = 3 ∨ m = 5 ∨ m = 8 ∨ m = 10 then 30
  else 31

/-- Days since the Unix epoch of the civil date `(y, m, d)` with `1 ≤ m ≤ 12`
(Gregorian, the arithmetic used by the JS `Date`). -/
def daysFromCivil (y m d : Nat) : Int :=
  let yAdj := if m ≤ 2 then y - 1 else y
  let era := yAdj / 400
  let yoe := yAdj % 400
  let mp := (m + 9) % 12
  let doy := (153 * mp + 2) / 5 + d - 1
  let doe := yoe * 365 + yoe / 4 - yoe / 100 + doy
  (era : Int) * 146097 + (doe : Int) - 719468

/-- Epoch day of day `day` in zero-based absolute month `t`; this is how the
JS `Date(year, monthIndex, day)` constructor normalizes out-of-range
month indices and day numbers. -/
def epochDayOfAbsMonth (t : Nat) (day : Nat) : Int :=
  daysFromCivil (t / 12) (t % 12 + 1) 1 + (day : Int) - 1

/-- Result record of `parseExpiryDate`: the constructed date (as an epoch
day, modelling the ISO string) plus the two formatted renderings. -/
structure ExpiryParts where
  isoDay : Int
  ddmmyy : String
  formatted : String
deriving Repr, DecidableEq

/-- `parseExpiryDate(yymmdd)`: `20YY` year expansion, day `00` replaced by
the day count of `new Date(year, month, 0)`, and the two display strings
(`ddmmyy` re-uses the original two year characters verbatim). -/
def parseExpiryDate (e : List Char) : ExpiryParts :=
  let yy := natOfDigits (e.take 2)
  let year := 2000 + yy
  let month := natOfDigits ((e.drop 2).take 2)
  let day0 := natOfDigits ((e.drop 4).take 2)
  let day := if day0 = 0 then jsDaysInMonthAbs (year * 12 + month - 1) else day0
  { isoDay := epochDayOfAbsMonth (year * 12 + month - 1) day
    ddmmyy := String.mk (pad2 day ++ pad2 month ++ e.take 2)
    formatted := String.mk (pad2 day ++ ('/' :: pad2 month) ++ ('/' :: (toString year).toList)) }

inductive ExpiryStatus where
  | missing
  | expired
  | soon
  | ok
deriving Repr, DecidableEq

/-- `CONFIG.EXPIRY_SOON_DAYS`. -/
def EXPIRY_SOON_DAYS : Nat := 90

/-- `calculateExpiryStatus(isoDate)`, with "today" passed explicitly as an
epoch day; `none` models a null/absent ISO date. Both dates are truncated
to midnight in the source, so `Math.ceil((expiry - today) / 86400000)`
is exactly the epoch-day difference. -/
def calculateExpiryStatus (iso : Option Int) (today : Int) : ExpiryStatus :=
  match iso with
  | none => ExpiryStatus.missing
  | some e =>
    let diffDays : Int := e - today
    if diffDays < 0 then ExpiryStatus.expired
    else if diffDays ≤ (EXPIRY_SOON_DAYS : Int) then ExpiryStatus.soon
    else ExpiryStatus.ok

/-- The `aiLengths` table of `convertToParenthesized`: AI → fixed field
length, `-1` for variable length. -/
def aiLengths : List (String × Int) :=
  [("01", 14), ("02", 14),
   ("10", -1), ("21", -1), ("22", -1),
   ("11", 6), ("13", 6), ("15", 6), ("17", 6),
   ("30", -1), ("37", -1),
   ("00", 18), ("20", 2)]

def aiLookup (s : String) : Option Int :=
  (aiLengths.find? (fun p => p.1 == s)).map (fun p => p.2)

/-- The inner loop of `convertToParenthesized` for a variable-length field:
consume characters until a delimiter (consumed and dropped) or, once at
least one character has been taken, until the next recognizable AI.
Returns the field value and the remaining input. -/
def takeVarField (nonempty : Bool) : List Char → List Char × List Char
  | [] => ([], [])
  | c :: rest =>
    if c = '|' ∨ c = gsChar then ([], rest)
    else if ((aiLookup (String.mk ((c :: rest).take 2))).isSome
              ∨ (aiLookup (String.mk ((c :: rest).take 3))).isSome)
            ∧ nonempty = true then
      ([], c :: rest)
    else
      (c :: (takeVarField true rest).1, (takeVarField true rest).2)

theorem takeVarField_rest_le (b : Bool) (l : List Char) :
    (takeVarField b l).2.length ≤ l.length := by
  induction l generalizing b with
  | nil => simp [takeVarField]
  | cons c rest ih =>
    simp only [takeVarField]
    split
    · simp
    · split
      · simp
      · simpa using (ih true).trans (Nat.le_succ rest.length)

/-- The scanning loop of `convertToParenthesized`: at each position try a
2-character then a 3-character AI lookup; unknown positions are skipped;
fixed-length AIs consume exactly their field length; variable-length AIs
consume via `takeVarField`. Emits `(AI)value` segments. -/
def convertGo (cs : List Char) : List Char :=
  match cs with
  | [] => []
  | c :: rest =>
    match aiLookup (String.mk ((c :: rest).take 2)) with
    | some len =>
      if 0 < len then
        ('(' :: (c :: rest).take 2 ++ (')' :: (rest.drop 1).take len.toNat))
          ++ convertGo ((rest.drop 1).drop len.toNat)
      else
        ('(' :: (c :: rest).take 2 ++ (')' :: (takeVarField false (rest.drop 1)).1))
          ++ convertGo (takeVarField false (rest.drop 1)).2
    | none =>
      match aiLookup (String.mk ((c :: rest).take 3)) with
      | some len =>
        if 0 < len then
          ('(' :: (c :: rest).take 3 ++ (')' :: (rest.drop 2).take len.toNat))
            ++ convertGo ((rest.drop 2).drop len.toNat)
        else
          ('(' :: (c :: rest).take 3 ++ (')' :: (takeVarField false (rest.drop 2)).1))
            ++ convertGo (takeVarField false (rest.drop 2)).2
      | none => convertGo rest
termination_by cs.length
decreasing_by
  all_goals simp only [List.length_cons, List.length_drop]
  · omega
  · have h := takeVarField_rest_le false (rest.drop 1)
    simp only [List.length_drop] at h
    omega
  · omega
  · have h := takeVarField_rest_le false (rest.drop 2)
    simp only [List.length_drop] at h
    omega
  · omega

/-- `convertToParenthesized(code)`: run the scan; `result || code` falls
back to the original input when the scan produced nothing. -/
def convertToParenthesized (s : String) : String :=
  let r := convertGo s.toList
  if r = [] then s else String.mk r

/-- Maximal run of leading decimal digits (the greedy `\d+` / `\d{a,b}`
capture attempt at a fixed position). -/
def digitRun : List Char → List Char
  | [] => []
  | c :: cs => if c.isDigit then c :: digitRun cs else []

def hasPrefixChars : List Char → List Char → Bool
  | [], _ => true
  | _ :: _, [] => false
  | p :: ps, c :: cs => p == c && hasPrefixChars ps cs

/-- Leftmost-match regex scan for a literal marker followed by a capture:
at each position, if the marker matches and the extractor succeeds on the
remainder, that capture is the match; otherwise advance one position. -/
def scanFor (marker : List Char) (extract : List Char → Option (List Char)) :
    List Char → Option (List Char)
  | [] => none
  | c :: cs =>
    if hasPrefixChars marker (c :: cs) = true then
      match extract ((c :: cs).drop marker.length) with
      | some r => some r
      | none => scanFor marker extract cs
    else scanFor marker extract cs

/-- Capture of `(\d{12,14})`: needs at least 12 leading digits, takes
greedily up to 14. -/
def extractGtinDigits (rest : List Char) : Option (List Char) :=
  let run := digitRun rest
  if 12 ≤ run.length then some (run.take 14) else none

/-- Capture of `(\d{6})`. -/
def extractSixDigits (rest : List Char) : Option (List Char) :=
  let run := digitRun rest
  if 6 ≤ run.length then some (run.take 6) else none

/-- Capture of `([^\(|\x1d]+)`: maximal nonempty run of characters other
than `(`, `|` and the group separator. -/
def extractFreeText (rest : List Char) : Option (List Char) :=
  let run := rest.takeWhile (fun c => !(c == '(' || c == '|' || c == gsChar))
  if run = [] then none else some run

/-- Capture of `(\d+)`. -/
def extractQtyDigits (rest : List Char) : Option (List Char) :=
  let run := digitRun rest
  if run = [] then none else some run

/-- The `ParsedCode` record produced by `parseGS1`. The `expiry` field
models the ISO date string as an epoch day (`none` = null). -/
structure ParsedCode where
  valid : Bool
  raw : String
  gtin14 : String
  gtin13 : String
  expiry : Option Int
  expiryDDMMYY : String
  expiryFormatted : String
  expiryStatus : ExpiryStatus
  batch : String
  serial : String
  qty : Nat
  rms : String
deriving Repr, DecidableEq

/-- The default (all-failure) `ParsedCode`. -/
def emptyParsed (raw : String) : ParsedCode :=
  { valid := false, raw := raw, gtin14 := "", gtin13 := "", expiry := none,
    expiryDDMMYY := "", expiryFormatted := "", expiryStatus := ExpiryStatus.missing,
    batch := "", serial := "", qty := 1, rms := "" }

/-- The regex-extraction stage of `parseGS1`: the five independent AI
extractions over the (possibly converted) code string. -/
def extractFields (r0 : ParsedCode) (code : List Char) (today : Int) : ParsedCode :=
  let r1 :=
    match scanFor ("(01)".toList) extractGtinDigits code with
    | some g =>
      let g14 := padList g 14
      { r0 with gtin14 := String.mk g14,
                gtin13 := String.mk (if hasPrefixChars ['0'] g14 = true then g14.drop 1 else g14),
                valid := true }
    | none => r0
  let r2 :=
    match scanFor ("(17)".toList) extractSixDigits code with
    | some e =>
      let p := parseExpiryDate e
      { r1 with expiry := some p.isoDay, expiryDDMMYY := p.ddmmyy,
                expiryFormatted := p.formatted,
                expiryStatus := calculateExpiryStatus (some p.isoDay) today }
    | none => r1
  let r3 :=
    match scanFor ("(10)".toList) extractFreeText code with
    | some b => { r2 with batch := String.mk (jsTrimList (b.filter (fun c => !(c == '|')))) }
    | none => r2
  let r4 :=
    match scanFor ("(21)".toList) extractFreeText code with
    | some sn => { r3 with serial := String.mk (jsTrimList (sn.filter (fun c => !(c == '|')))) }
    | none => r3
  match scanFor ("(30)".toList) extractQtyDigits code with
  | some q => { r4 with qty := if natOfDigits q = 0 then 1 else natOfDigits q }
  | none => r4

/-- First two characters are decimal digits (`/^\d{2}/`). -/
def twoDigitStart : List Char → Bool
  | c1 :: c2 :: _ => c1.isDigit && c2.isDigit
  | _ => false

/-- The tail of `parseGS1` after the bare-numeric branch: the 5–7 digit
short-code check, the conversion of unparenthesized AI streams, and the
regex extraction stage. -/
def parseRest (r : ParsedCode) (code : String) (today : Int) : ParsedCode :=
  let cs := code.toList
  if (cs.all Char.isDigit = true) ∧ 5 ≤ cs.length ∧ cs.length ≤ 7 then
    { r with gtin14 := code, gtin13 := code, valid := true }
  else
    let code2 :=
      if (cs.contains '(' = false) ∧ twoDigitStart cs = true then
        convertToParenthesized code
      else code
    extractFields r code2.toList today

/-- `parseGS1(raw)` (the spec entry point `normalizeAndDecode`), with
"today" passed explicitly for the expiry-status classification. `none`
models a null/undefined/non-string argument (whose `raw` field the model
renders as `""`). -/
def parseGS1 (raw? : Option String) (today : Int) : ParsedCode :=
  match raw? with
  | none => emptyParsed ""
  | some raw =>
    if raw = "" then emptyParsed ""
    else
      let code := String.mk ((jsTrimList raw.toList).map
        (fun c => if c = gsChar then '|' else c))
      let cs := code.toList
      if (cs.all Char.isDigit = true) ∧ 5 ≤ cs.length ∧ cs.length ≤ 21
          ∧ (cs.contains '(' = false) then
        let r := { emptyParsed raw with
                   gtin14 := padStartStr code 14,
                   gtin13 := if cs.length ≤ 13 then code else String.mk (cs.take 13),
                   valid := true }
        if (hasPrefixChars ['0', '1'] cs = true) ∧ 16 ≤ cs.length then
          parseRest r (convertToParenthesized code) today
        else r
      else
        parseRest (emptyParsed raw) code today

/-- One entry of a last-8 bucket (`{ barcode: digits, name }`). -/
structure Last8Entry where
  barcode : String
  name : String
deriving Repr, DecidableEq

/-- The `exact` table. A JS `Map` is modelled as an association list where
`set` prepends and `get`/`has` take the first hit, so the last `set` for a
key wins — exactly the `Map` get/has semantics (`exact` is never iterated). -/
def ExactMap : Type := List (String × String)

def setExact (m : ExactMap) (k v : String) : ExactMap :=
  ((k, v) :: m : List (String × String))

def lookupExact (m : ExactMap) (k : String) : Option String :=
  ((m : List (String × String)).find? (fun p => p.1 == k)).map (fun p => p.2)

/-- The `last8` table: key → bucket list, buckets accumulated by `push`. -/
def Last8Map : Type := List (String × List Last8Entry)

def pushLast8 : List (String × List Last8Entry) → String → Last8Entry →
    List (String × List Last8Entry)
  | [], k, e => [(k, [e])]
  | (k1, b) :: t, k, e =>
    if k1 == k then (k1, b ++ [e]) :: t else (k1, b) :: pushLast8 t k e

def lookupLast8 (m : Last8Map) (k : String) : Option (List Last8Entry) :=
  ((m : List (String × List Last8Entry)).find? (fun p => p.1 == k)).map (fun p => p.2)

structure MasterIndex where
  exact : ExactMap
  last8 : Last8Map

/-- The body of the `State.masterData.forEach` loop of `buildMasterIndex`,
processing one catalog entry `(barcode, name)`. -/
def indexEntry (idx : MasterIndex) (barcode name : String) : MasterIndex :=
  let digits := digitsOf barcode
  if digits = "" then idx
  else
    let ex1 := setExact (setExact idx.exact digits name) barcode name
    let afterGtin : MasterIndex :=
      if digits.toList.length = 8 ∨ digits.toList.length = 12
          ∨ digits.toList.length = 13 ∨ digits.toList.length = 14 then
        let g14 := padStartStr digits 14
        let g13 := if hasPrefixChars ['0'] g14.toList = true
                   then String.mk (g14.toList.drop 1) else g14
        let g12 := if hasPrefixChars ['0'] g13.toList = true
                   then String.mk (g13.toList.drop 1) else g13
        { exact := setExact (setExact (setExact ex1 g14 name) g13 name) g12 name,
          last8 := pushLast8 idx.last8 (lastNStr g14 8) { barcode := digits, name := name } }
      else if 8 ≤ digits.toList.length then
        { exact := ex1,
          last8 := pushLast8 idx.last8 (lastNStr digits 8) { barcode := digits, name := name } }
      else
        { exact := ex1, last8 := idx.last8 }
    let stripped := stripLeadingZerosStr digits
    if stripped ≠ "" ∧ stripped ≠ digits then
      { afterGtin with exact := setExact afterGtin.exact stripped name }
    else afterGtin

/-- `buildMasterIndex` (the spec entry point `rebuildIndex`) over the
catalog mapping, given as its insertion-ordered entry list. -/
def buildMasterIndex (catalog : List (String × String)) : MasterIndex :=
  catalog.foldl (fun idx p => indexEntry idx p.1 p.2) { exact := [], last8 := [] }

inductive MatchType where
  | EXACT
  | LAST8
  | AMBIG
  | API
  | NONE
deriving Repr, DecidableEq

structure MatchResult where
  name : String
  type : MatchType
deriving Repr, DecidableEq

/-- A successful exact-table hit as a `MatchResult`. -/
def exactHit (ex : ExactMap) (k : String) : Option MatchResult :=
  (lookupExact ex k).map (fun n => { name := n, type := MatchType.EXACT })

/-- Step 5 of `matchProduct`: try each padded width in turn. -/
def tryPads (ex : ExactMap) (digits : String) : List Nat → Option MatchResult
  | [] => none
  | p :: ps =>
    match lookupExact ex (padStartStr digits p) with
    | some n => some { name := n, type := MatchType.EXACT }
    | none => tryPads ex digits ps

/-- `matchProduct(gtin14, gtin13)` (the spec entry point `match`), with the
index passed explicitly. Each step is an `Option MatchResult`; the
early-return cascade of the source is the left-biased `orElse` chain. -/
def matchProduct (idx : MasterIndex) (gtin14 gtin13 : Option String) : MatchResult :=
  let digits14 := digitsOf (gtin14.getD "")
  let digits13 := digitsOf (gtin13.getD "")
  let s1 := if digits14 = "" then none else exactHit idx.exact digits14
  let s1b := if digits13 = "" then none else exactHit idx.exact digits13
  let s2 := exactHit idx.exact (padStartStr digits14 14)
  let stripped := stripLeadingZerosStr digits14
  let s3 := if stripped = "" then none else exactHit idx.exact stripped
  let s4 :=
    if 8 ≤ digits14.toList.length then
      match lookupLast8 idx.last8 (lastNStr digits14 8) with
      | some (e :: []) => some { name := e.name, type := MatchType.LAST8 }
      | some (e :: _ :: _) => some { name := e.name, type := MatchType.AMBIG }
      | _ => none
    else none
  let s5 :=
    if 5 ≤ digits14.toList.length ∧ digits14.toList.length ≤ 11 then
      tryPads idx.exact digits14
        (List.range' digits14.toList.length (15 - digits14.toList.length))
    else none
  (((((s1.orElse (fun _ => s1b)).orElse (fun _ => s2)).orElse (fun _ => s3)).orElse
      (fun _ => s4)).orElse (fun _ => s5)).getD { name := "", type := MatchType.NONE }

/-- Specification-side last-day-of-month table (1-based month), used to
state the day-00 correction independently of the `Date`-normalization
arithmetic of `jsDaysInMonthAbs`. -/
def lastDay (y m : Nat) : Nat :=
  if m = 2 then (if isLeapYear y then 29 else 28)
  else if m = 4 ∨ m = 6 ∨ m = 9 ∨ m = 11 then 30
  else 31

/-- The last-8 bucket entries contributed by a single catalog entry for a
given bucket key (mirrors the branch structure of `indexEntry`). -/
def bucketContrib (barcode name k : String) : List Last8Entry :=
  let digits := digitsOf barcode
  if digits = "" then []
  else if digits.toList.length = 8 ∨ digits.toList.length = 12
      ∨ digits.toList.length = 13 ∨ digits.toList.length = 14 then
    if lastNStr (padStartStr digits 14) 8 = k then [{ barcode := digits, name := name }] else []
  else if 8 ≤ digits.toList.length then
    if lastNStr digits 8 = k then [{ barcode := digits, name := name }] else []
  else []

/-- The bucket for key `k` accumulated over the catalog in insertion
order: earlier catalog entries come first. -/
def bucketOf (catalog : List (String × String)) (k : String) : List Last8Entry :=
  match catalog with
  | [] => []
  | (b, n) :: t => bucketContrib b n k ++ bucketOf t k

/-- The identifier-field invariant of `ParsedCode`: a valid record has a
nonempty `gtin14`, and an invalid record has both identifier fields empty. -/
def IdInvariant (r : ParsedCode) : Prop :=
  (r.valid = true → r.gtin14 ≠ "") ∧ (r.valid = false → r.gtin14 = "" ∧ r.gtin13 = "")

/-! ### Basic facts about the string helpers -/

theorem toList_mk (l : List Char) : (String.mk l).toList = l := rfl

theorem mk_toList (s : String) : String.mk s.toList = s := rfl

theorem mk_eq_empty_iff (l : List Char) : String.mk l = "" ↔ l = [] := by
  constructor
  · intro h
    have : (String.mk l).toList = ("" : String).toList := by rw [h]
    simpa using this
  · intro h
    rw [h]

theorem mk_ne_empty (l : List Char) (h : l ≠ []) : String.mk l ≠ "" :=
  fun he => h (congrArg String.toList he)

theorem padList_length (l : List Char) (n : Nat) :
    (padList l n).length = max n l.length := by
  simp [padList]
  omega

theorem padList_of_length_le (l : List Char) (n : Nat) (h : n ≤ l.length) :
    padList l n = l := by
  simp [padList, Nat.sub_eq_zero_of_le h]

theorem padList_ne_nil (l : List Char) (n : Nat) (h : 0 < n) :
    padList l n ≠ [] := by
  intro he
  have := congrArg List.length he
  rw [padList_length] at this
  simp only [List.length_nil] at this
  omega

/-! ### How `extractFields` treats the individual fields -/

theorem extractFields_of_gtin_none (r : ParsedCode) (code : List Char) (today : Int)
    (hg : scanFor ("(01)".toList) extractGtinDigits code = none) :
    (extractFields r code today).gtin14 = r.gtin14
    ∧ (extractFields r code today).valid = r.valid
    ∧ (extractFields r code today).gtin13 = r.gtin13 := by
  unfold extractFields
  rw [hg]
  cases scanFor ("(17)".toList) extractSixDigits code <;>
    cases scanFor ("(10)".toList) extractFreeText code <;>
    cases scanFor ("(21)".toList) extractFreeText code <;>
    cases scanFor ("(30)".toList) extractQtyDigits code <;>
      exact ⟨rfl, rfl, rfl⟩

theorem extractFields_of_gtin_some (r : ParsedCode) (code : List Char) (today : Int)
    (g : List Char) (hg : scanFor ("(01)".toList) extractGtinDigits code = some g) :
    (extractFields r code today).gtin14 = String.mk (padList g 14)
    ∧ (extractFields r code today).valid = true
    ∧ (extractFields r code today).gtin13
        = String.mk (if hasPrefixChars ['0'] (padList g 14) = true
                     then (padList g 14).drop 1 else padList g 14) := by
  unfold extractFields
  rw [hg]
  cases scanFor ("(17)".toList) extractSixDigits code <;>
    cases scanFor ("(10)".toList) extractFreeText code <;>
    cases scanFor ("(21)".toList) extractFreeText code <;>
    cases scanFor ("(30)".toList) extractQtyDigits code <;>
      exact ⟨rfl, rfl, rfl⟩

theorem extractFields_of_qty_none (r : ParsedCode) (code : List Char) (today : Int)
    (hq : scanFor ("(30)".toList) extractQtyDigits code = none) :
    (extractFields r code today).qty = r.qty := by
  unfold extractFields
  rw [hq]
  cases scanFor ("(01)".toList) extractGtinDigits code <;>
    cases scanFor ("(17)".toList) extractSixDigits code <;>
    cases scanFor ("(10)".toList) extractFreeText code <;>
    cases scanFor ("(21)".toList) extractFreeText code <;>
      rfl

theorem extractFields_of_qty_some (r : ParsedCode) (code : List Char) (today : Int)
    (q : List Char) (hq : scanFor ("(30)".toList) extractQtyDigits code = some q) :
    (extractFields r code today).qty = (if natOfDigits q = 0 then 1 else natOfDigits q) := by
  unfold extractFields
  rw [hq]

/-! ### The identifier-field invariant -/

theorem idInvariant_extractFields (r : ParsedCode) (code : List Char) (today : Int)
    (h : IdInvariant r) : IdInvariant (extractFields r code today) := by
  cases hg : scanFor ("(01)".toList) extractGtinDigits code with
  | none =>
    obtain ⟨h14, hv, h13⟩ := extractFields_of_gtin_none r code today hg
    exact ⟨fun hvt => h14 ▸ h.1 (by rw [← hv]; exact hvt),
           fun hvf => ⟨h14 ▸ (h.2 (by rw [← hv]; exact hvf)).1,
                       h13 ▸ (h.2 (by rw [← hv]; exact hvf)).2⟩⟩
  | some g =>
    obtain ⟨h14, hv, h13⟩ := extractFields_of_gtin_some r code today g hg
    refine ⟨fun _ => ?_, fun hvf => ?_⟩
    · rw [h14]
      exact mk_ne_empty _ (padList_ne_nil g 14 (by omega))
    · rw [hv] at hvf
      exact absurd hvf (by simp)

theorem idInvariant_parseRest (r : ParsedCode) (code : String) (today : Int)
    (h : IdInvariant r) : IdInvariant (parseRest r code today) := by
  simp only [parseRest]
  split
  · next hc =>
    refine ⟨fun _ => ?_, fun hvf => by simp at hvf⟩
    show code ≠ ""
    intro he
    rw [he] at hc
    simp at hc
  · exact idInvariant_extractFields _ _ _ h

theorem idInvariant_emptyParsed (raw : String) : IdInvariant (emptyParsed raw) := by
  constructor <;> intro h <;> simp [emptyParsed] at h ⊢

theorem idInvariant_parseGS1 (raw? : Option String) (today : Int) :
    IdInvariant (parseGS1 raw? today) := by
  cases raw? with
  | none => exact idInvariant_emptyParsed ""
  | some raw =>
    simp only [parseGS1]
    split
    · exact idInvariant_emptyParsed ""
    · split
      · have hr : ∀ r : ParsedCode, r.valid = true → r.gtin14 ≠ "" → IdInvariant r :=
          fun r hv h14 => ⟨fun _ => h14, fun hf => by rw [hv] at hf; cases hf⟩
        have hpad : ∀ s : String, padStartStr s 14 ≠ "" := by
          intro s
          exact mk_ne_empty _ (padList_ne_nil _ 14 (by omega))
        split
        · exact idInvariant_parseRest _ _ _ (hr _ rfl (hpad _))
        · exact hr _ rfl (hpad _)
      · exact idInvariant_parseRest _ _ _ (idInvariant_emptyParsed raw)

/-! ### Character-class facts -/

theorem isJsWs_of_digit (c : Char) (h : c.isDigit = true) : isJsWs c = false := by
  have h2 : 48 ≤ c.val.toNat ∧ c.val.toNat ≤ 57 := by simp [Char.isDigit] at h; exact h
  simp [isJsWs, Char.ext_iff, UInt32.ext_iff, Char.toNat, UInt32.size]
  omega

theorem ne_gsChar_of_digit (c : Char) (h : c.isDigit = true) : c ≠ gsChar := by
  intro he
  rw [he] at h
  exact absurd h (by decide)

theorem ne_lparen_of_digit (c : Char) (h : c.isDigit = true) : ¬ (c = '(') := by
  intro he
  rw [he] at h
  exact absurd h (by decide)

theorem dropWhile_eq_self_of (p : Char → Bool) (l : List Char)
    (h : ∀ c ∈ l, p c = false) : l.dropWhile p = l := by
  cases l with
  | nil => rfl
  | cons a t => simp [List.dropWhile_cons, h a (List.mem_cons_self a t)]

theorem jsTrimList_of_no_ws (l : List Char) (h : ∀ c ∈ l, isJsWs c = false) :
    jsTrimList l = l := by
  unfold jsTrimList
  rw [dropWhile_eq_self_of _ _ h, dropWhile_eq_self_of, List.reverse_reverse]
  intro c hc
  exact h c (by simpa using hc)

theorem map_gsSwap_of_no_gs (l : List Char) (h : ∀ c ∈ l, c ≠ gsChar) :
    l.map (fun c => if c = gsChar then '|' else c) = l := by
  induction l with
  | nil => rfl
  | cons a t ih =>
    simp only [List.map_cons]
    rw [if_neg (h a (List.mem_cons_self a t)), ih (fun c hc => h c (List.mem_cons_of_mem a hc))]

theorem contains_lparen_eq_false (l : List Char) (h : ∀ c ∈ l, c.isDigit = true) :
    l.contains '(' = false := by
  induction l with
  | nil => rfl
  | cons a t ih =>
    simp only [List.contains_cons]
    rw [ih (fun c hc => h c (List.mem_cons_of_mem a hc))]
    have ha := ne_lparen_of_digit a (h a (List.mem_cons_self a t))
    simp
    exact fun he => ha he.symm

theorem digitRun_of_all_digits (l : List Char) (h : ∀ c ∈ l, c.isDigit = true) :
    digitRun l = l := by
  induction l with
  | nil => rfl
  | cons a t ih =>
    simp only [digitRun]
    rw [if_pos (h a (List.mem_cons_self a t)), ih (fun c hc => h c (List.mem_cons_of_mem a hc))]

/-! ### Claim theorems -/

/-- Claim C3: for every input and reference day, the decoded `ParsedCode`
has `valid = true` exactly when at least one identifier field (`gtin14` or
`gtin13`) was extracted, and `gtin14` is nonempty whenever `valid` holds. -/
theorem claim_c3_valid_invariant (raw? : Option String) (today : Int) :
    ((parseGS1 raw? today).valid = true ↔
      ((parseGS1 raw? today).gtin14 ≠ "" ∨ (parseGS1 raw? today).gtin13 ≠ ""))
    ∧ ((parseGS1 raw? today).valid = true → (parseGS1 raw? today).gtin14 ≠ "") := by
  obtain ⟨h1, h2⟩ := idInvariant_parseGS1 raw? today
  refine ⟨⟨fun hv => Or.inl (h1 hv), fun hor => ?_⟩, h1⟩
  cases hb : (parseGS1 raw? today).valid with
  | true => rfl
  | false =>
    obtain ⟨e14, e13⟩ := h2 hb
    rcases hor with h | h
    · exact absurd e14 h
    · exact absurd e13 h

theorem claim_c3_witness : (parseGS1 (some "12345678") 0).gtin14 ≠ "" :=
  (claim_c3_valid_invariant (some "12345678") 0).2 (by decide)

/-- Claim C5: expiry status is classified from the day difference
`diffDays = expiry - today` as expired / soon / ok with the 90-day
`EXPIRY_SOON_DAYS` threshold, and an absent expiry is `missing` and is
never escalated to any of the other statuses. -/
theorem claim_c5_expiry_status :
    EXPIRY_SOON_DAYS = 90
    ∧ (∀ today : Int, calculateExpiryStatus none today = ExpiryStatus.missing)
    ∧ (∀ (e today : Int), calculateExpiryStatus (some e) today ≠ ExpiryStatus.missing)
    ∧ (∀ (e today : Int),
        (e - today < 0 → calculateExpiryStatus (some e) today = ExpiryStatus.expired)
        ∧ (0 ≤ e - today → e - today ≤ 90 →
            calculateExpiryStatus (some e) today = ExpiryStatus.soon)
        ∧ (90 < e - today → calculateExpiryStatus (some e) today = ExpiryStatus.ok)) := by
  refine ⟨rfl, fun _ => rfl, ?_, ?_⟩
  · intro e today
    simp only [calculateExpiryStatus]
    split
    · simp
    · split <;> simp
  · intro e today
    refine ⟨fun h => ?_, fun h0 h90 => ?_, fun h => ?_⟩
    · simp only [calculateExpiryStatus]
      rw [if_pos h]
    · simp only [calculateExpiryStatus]
      rw [if_neg (by omega), if_pos (by simp [EXPIRY_SOON_DAYS]; omega)]
    · simp only [calculateExpiryStatus]
      rw [if_neg (by omega), if_neg (by simp [EXPIRY_SOON_DAYS]; omega)]

theorem claim_c5_witness :
    calculateExpiryStatus (some 0) 1 = ExpiryStatus.expired
    ∧ calculateExpiryStatus (some 90) 0 = ExpiryStatus.soon
    ∧ calculateExpiryStatus (some 91) 0 = ExpiryStatus.ok :=
  ⟨(claim_c5_expiry_status.2.2.2 0 1).1 (by decide),
   (claim_c5_expiry_status.2.2.2 90 0).2.1 (by decide) (by decide),
   (claim_c5_expiry_status.2.2.2 91 0).2.2 (by decide)⟩

/-- Claim C6: the decoder is total — a null/undefined input, the empty
string and a completely unparseable string all yield the all-default
`ParsedCode` (valid false, empty identifier fields, no expiry, status
missing, quantity 1); the AI-token conversion is total and falls back to
the original input when its scan produced nothing. -/
theorem claim_c6_total_failure_defaults :
    (∀ today : Int, parseGS1 none today = emptyParsed "")
    ∧ (∀ today : Int, parseGS1 (some "") today = emptyParsed "")
    ∧ (∀ today : Int,
        parseGS1 (some "no identifiers here") today = emptyParsed "no identifiers here")
    ∧ (∀ s : String, convertGo s.toList = [] → convertToParenthesized s = s) := by
  refine ⟨fun _ => rfl, fun _ => rfl, fun _ => rfl, fun s h => ?_⟩
  have h2 : convertGo s.data = [] := h
  simp [convertToParenthesized, h2]

theorem claim_c6_witness :
    convertGo ("ZZ" : String).toList = [] ∧ convertToParenthesized "ZZ" = "ZZ" :=
  ⟨by simp [convertGo, aiLookup, aiLengths],
   claim_c6_total_failure_defaults.2.2.2 "ZZ" (by simp [convertGo, aiLookup, aiLengths])⟩

/-- Claim C9: the decoded quantity is always an integer at least 1: it is 1
when AI (30) is absent, the parsed value when the (30) digits parse to a
nonzero value (`(30)007` gives 7), and 1 when the digits denote zero. -/
theorem claim_c9_quantity :
    (∀ (raw? : Option String) (today : Int), 1 ≤ (parseGS1 raw? today).qty)
    ∧ (∀ today : Int, (parseGS1 (some "(30)007") today).qty = 7)
    ∧ (∀ today : Int, (parseGS1 (some "(30)000") today).qty = 1)
    ∧ (∀ today : Int, (parseGS1 (some "(10)LOT1") today).qty = 1) := by
  have hqextract : ∀ (r : ParsedCode) (code : List Char) (today : Int),
      1 ≤ r.qty → 1 ≤ (extractFields r code today).qty := by
    intro r code today h
    cases hq : scanFor ("(30)".toList) extractQtyDigits code with
    | none => rw [extractFields_of_qty_none r code today hq]; exact h
    | some q =>
      rw [extractFields_of_qty_some r code today q hq]
      split <;> omega
  have hqrest : ∀ (r : ParsedCode) (code : String) (today : Int),
      1 ≤ r.qty → 1 ≤ (parseRest r code today).qty := by
    intro r code today h
    simp only [parseRest]
    split
    · exact h
    · exact hqextract _ _ _ h
  refine ⟨?_, fun _ => rfl, fun _ => rfl, fun _ => rfl⟩
  intro raw? today
  cases raw? with
  | none => exact Nat.le_refl 1
  | some raw =>
    simp only [parseGS1]
    split
    · exact Nat.le_refl 1
    · split
      · split
        · exact hqrest _ _ _ (Nat.le_refl 1)
        · exact Nat.le_refl 1
      · exact hqrest _ _ _ (Nat.le_refl 1)

/-- Claim C10 counterexample: with an index built from the catalog entry
`"00000000000000" → "Zero"`, matching null/null does not return the empty
NONE result — step 2 pads the empty digit string to fourteen zeros and
finds that key, returning EXACT. -/
theorem claim_c10_counterexample :
    matchProduct (buildMasterIndex [("00000000000000", "Zero")]) none none
      ≠ { name := "", type := MatchType.NONE } := by decide

/-- Claim C10 (amended): the matcher is total at its interface, and for
null/undefined/empty/non-digit arguments (both stripping to the empty
digit string) it returns `{name: "", matchType: NONE}` provided the exact
table has no entry under the 14-zero key that step 2 produces by padding
the empty string. -/
theorem claim_c10_amended (idx : MasterIndex) (gtin14 gtin13 : Option String)
    (h14 : digitsOf (gtin14.getD "") = "")
    (h13 : digitsOf (gtin13.getD "") = "")
    (hz : lookupExact idx.exact "00000000000000" = none) :
    matchProduct idx gtin14 gtin13 = { name := "", type := MatchType.NONE } := by
  simp only [matchProduct]
  rw [h14, h13]
  have hp : padStartStr "" 14 = "00000000000000" := rfl
  rw [hp]
  simp [exactHit, hz, stripLeadingZerosStr, Option.orElse]

theorem claim_c10_witness :
    matchProduct (buildMasterIndex []) none none = { name := "", type := MatchType.NONE } :=
  claim_c10_amended (buildMasterIndex []) none none (by decide) (by decide) (by decide)

/-- Claim C7 counterexample: for the 5-digit input `"12345"` the decoder
does not set both identifier fields to the code itself — the bare-numeric
branch (which covers all 5–21 digit inputs, making the dedicated 5–7 digit
branch unreachable) pads `gtin14` to fourteen digits. -/
theorem claim_c7_counterexample :
    ¬ ((parseGS1 (some "12345") 0).gtin14 = "12345"
        ∧ (parseGS1 (some "12345") 0).gtin13 = "12345") := by decide

/-- Claim C7 (amended): an input of exactly 5–7 decimal digits is decoded
by the bare-numeric branch and returned immediately with no AI decoding:
`gtin13` is the code itself, `gtin14` is the code left-padded to 14 digits,
`valid` is true, and every other field keeps its default. -/
theorem claim_c7_amended (s : String) (today : Int)
    (hd : ∀ c ∈ s.toList, c.isDigit = true)
    (h5 : 5 ≤ s.toList.length) (h7 : s.toList.length ≤ 7) :
    parseGS1 (some s) today =
      { emptyParsed s with gtin14 := padStartStr s 14, gtin13 := s, valid := true } := by
  have hne : s ≠ "" := by
    intro he
    rw [he] at h5
    simp at h5
  have htrim : jsTrimList s.toList = s.toList :=
    jsTrimList_of_no_ws _ (fun c hc => isJsWs_of_digit c (hd c hc))
  have hmap : (jsTrimList s.toList).map (fun c => if c = gsChar then '|' else c) = s.toList := by
    rw [htrim]
    exact map_gsSwap_of_no_gs _ (fun c hc => ne_gsChar_of_digit c (hd c hc))
  simp only [parseGS1]
  rw [if_neg hne]
  rw [hmap, mk_toList]
  rw [if_pos ⟨List.all_eq_true.mpr hd, h5, by omega,
        contains_lparen_eq_false _ hd⟩]
  rw [if_neg (fun hpre => by omega)]
  rw [if_pos (by omega : s.toList.length ≤ 13)]

theorem claim_c7_amended_witness :
    parseGS1 (some "12345") 0 =
      { emptyParsed "12345" with
        gtin14 := padStartStr "12345" 14, gtin13 := "12345", valid := true } :=
  claim_c7_amended "12345" 0 (by decide) (by decide) (by decide)

/-- Claim C1: the matcher's strategies run in the exact fixed order
(digit-stripped gtin14, then gtin13, then the 14-padded form, then the
leading-zero-stripped form, then the fuzzy tables), returning on the
first hit, so an exact match is never shadowed by a fuzzy one; and on the
catalog `{"5012345678900": "Paracetamol 500mg"}` matching
`gtin14 = "05012345678900"` returns EXACT with that name. -/
theorem claim_c1_exact_first :
    (∀ (idx : MasterIndex) (gtin14 gtin13 : Option String) (n : String),
      digitsOf (gtin14.getD "") ≠ "" →
      lookupExact idx.exact (digitsOf (gtin14.getD "")) = some n →
      matchProduct idx gtin14 gtin13 = { name := n, type := MatchType.EXACT })
    ∧ (∀ (idx : MasterIndex) (gtin14 gtin13 : Option String) (n : String),
      (digitsOf (gtin14.getD "") = ""
        ∨ lookupExact idx.exact (digitsOf (gtin14.getD "")) = none) →
      digitsOf (gtin13.getD "") ≠ "" →
      lookupExact idx.exact (digitsOf (gtin13.getD "")) = some n →
      matchProduct idx gtin14 gtin13 = { name := n, type := MatchType.EXACT })
    ∧ (∀ (idx : MasterIndex) (gtin14 gtin13 : Option String) (n : String),
      (digitsOf (gtin14.getD "") = ""
        ∨ lookupExact idx.exact (digitsOf (gtin14.getD "")) = none) →
      (digitsOf (gtin13.getD "") = ""
        ∨ lookupExact idx.exact (digitsOf (gtin13.getD "")) = none) →
      lookupExact idx.exact (padStartStr (digitsOf (gtin14.getD "")) 14) = some n →
      matchProduct idx gtin14 gtin13 = { name := n, type := MatchType.EXACT })
    ∧ (∀ (idx : MasterIndex) (gtin14 gtin13 : Option String) (n : String),
      (digitsOf (gtin14.getD "") = ""
        ∨ lookupExact idx.exact (digitsOf (gtin14.getD "")) = none) →
      (digitsOf (gtin13.getD "") = ""
        ∨ lookupExact idx.exact (digitsOf (gtin13.getD "")) = none) →
      lookupExact idx.exact (padStartStr (digitsOf (gtin14.getD "")) 14) = none →
      stripLeadingZerosStr (digitsOf (gtin14.getD "")) ≠ "" →
      lookupExact idx.exact (stripLeadingZerosStr (digitsOf (gtin14.getD ""))) = some n →
      matchProduct idx gtin14 gtin13 = { name := n, type := MatchType.EXACT })
    ∧ matchProduct (buildMasterIndex [("5012345678900", "Paracetamol 500mg")])
        (some "05012345678900") (some "5012345678900")
        = { name := "Paracetamol 500mg", type := MatchType.EXACT } := by
  refine ⟨?_, ?_, ?_, ?_, by decide⟩
  · intro idx gtin14 gtin13 n hne hlk
    simp [matchProduct, exactHit, hne, hlk, Option.orElse]
  · intro idx gtin14 gtin13 n hm1 hne13 hlk
    rcases hm1 with he | hl
    · simp [matchProduct, exactHit, he, hne13, hlk, Option.orElse]
    · simp [matchProduct, exactHit, hl, hne13, hlk, Option.orElse]
  · intro idx gtin14 gtin13 n hm1 hm1b hlk
    rcases hm1 with he | hl <;> rcases hm1b with he2 | hl2 <;>
      simp_all [matchProduct, exactHit, Option.orElse]
  · intro idx gtin14 gtin13 n hm1 hm1b hm2 hne3 hlk
    rcases hm1 with he | hl <;> rcases hm1b with he2 | hl2 <;>
      simp_all [matchProduct, exactHit, Option.orElse]

theorem claim_c1_witness :
    matchProduct (buildMasterIndex [("5012345678900", "Paracetamol 500mg")])
      (some "5012345678900") none
      = { name := "Paracetamol 500mg", type := MatchType.EXACT } :=
  claim_c1_exact_first.1 (buildMasterIndex [("5012345678900", "Paracetamol 500mg")])
    (some "5012345678900") none "Paracetamol 500mg" (by decide) (by decide)

/-- The `new Date(year, month, 0).getDate()` computation of the source
yields exactly the day count of calendar month `m` of year `y`. -/
theorem jsDaysInMonthAbs_eq_lastDay (y m : Nat) (h1 : 1 ≤ m) (h2 : m ≤ 12) :
    jsDaysInMonthAbs (y * 12 + m - 1) = lastDay y m := by
  have ht : y * 12 + m - 1 = y * 12 + (m - 1) := by omega
  rw [ht]
  have hdiv : (y * 12 + (m - 1)) / 12 = y := by omega
  have hmod : (y * 12 + (m - 1)) % 12 = m - 1 := by omega
  simp only [jsDaysInMonthAbs, hdiv, hmod, lastDay]
  interval_cases m <;> simp

/-- Claim C4: a YYMMDD expiry with day 00 decodes to the last day of the
given month; the DD/MM/YYYY display uses the corrected day and the
expanded 4-digit year, while the DDMMYY compact form uses the corrected
day and month but repeats the original two year characters verbatim;
concretely `(17)250100` renders as `31/01/2025` and `310125`. -/
theorem claim_c4_day00_expiry :
    (∀ y1 y2 m1 m2 : Char, y1.isDigit = true → y2.isDigit = true →
      m1.isDigit = true → m2.isDigit = true →
      1 ≤ natOfDigits [m1, m2] → natOfDigits [m1, m2] ≤ 12 →
      (parseExpiryDate [y1, y2, m1, m2, '0', '0']).formatted
          = String.mk (pad2 (lastDay (2000 + natOfDigits [y1, y2]) (natOfDigits [m1, m2]))
              ++ ('/' :: pad2 (natOfDigits [m1, m2]))
              ++ ('/' :: (toString (2000 + natOfDigits [y1, y2])).toList))
      ∧ (parseExpiryDate [y1, y2, m1, m2, '0', '0']).ddmmyy
          = String.mk (pad2 (lastDay (2000 + natOfDigits [y1, y2]) (natOfDigits [m1, m2]))
              ++ pad2 (natOfDigits [m1, m2]) ++ [y1, y2]))
    ∧ (∀ today : Int,
        (parseGS1 (some "(17)250100") today).expiryFormatted = "31/01/2025"
        ∧ (parseGS1 (some "(17)250100") today).expiryDDMMYY = "310125") := by
  constructor
  · intro y1 y2 m1 m2 hy1 hy2 hm1 hm2 hmlo hmhi
    have h0 : natOfDigits ((([y1, y2, m1, m2, '0', '0'] : List Char).drop 4).take 2) = 0 := rfl
    simp only [parseExpiryDate]
    have htake2 : (([y1, y2, m1, m2, '0', '0'] : List Char).take 2) = [y1, y2] := rfl
    have hmid : ((([y1, y2, m1, m2, '0', '0'] : List Char).drop 2).take 2) = [m1, m2] := rfl
    rw [htake2, hmid, h0, if_pos rfl,
        jsDaysInMonthAbs_eq_lastDay (2000 + natOfDigits [y1, y2]) (natOfDigits [m1, m2]) hmlo hmhi]
    exact ⟨rfl, rfl⟩
  · intro today
    exact ⟨rfl, rfl⟩

theorem claim_c4_witness :
    (parseExpiryDate ['2', '5', '0', '1', '0', '0']).formatted = "31/01/2025"
    ∧ (parseExpiryDate ['2', '5', '0', '1', '0', '0']).ddmmyy = "310125" := by
  have h := claim_c4_day00_expiry.1 '2' '5' '0' '1' (by decide) (by decide) (by decide)
    (by decide) (by decide) (by decide)
  exact ⟨h.1.trans (by decide), h.2.trans (by decide)⟩

/-- Decoding `(01)` followed by a 12–14 digit string yields its 14-padded
form as `gtin14`. -/
theorem parseGS1_gtin_wrapped (d : String) (today : Int)
    (hd : ∀ c ∈ d.toList, c.isDigit = true)
    (h12 : 12 ≤ d.toList.length) (h14 : d.toList.length ≤ 14) :
    (parseGS1 (some ("(01)" ++ d)) today).gtin14 = String.mk (padList d.toList 14) := by
  have hcs : ("(01)" ++ d).toList = '(' :: '0' :: '1' :: ')' :: d.toList := rfl
  have hne : ("(01)" ++ d) ≠ "" := by
    intro he
    have h0 := congrArg String.toList he
    rw [hcs] at h0
    cases h0
  have hws : ∀ c ∈ '(' :: '0' :: '1' :: ')' :: d.toList, isJsWs c = false := by
    intro c hc
    simp only [List.mem_cons] at hc
    rcases hc with rfl | rfl | rfl | rfl | hc
    · decide
    · decide
    · decide
    · decide
    · exact isJsWs_of_digit c (hd c hc)
  have hgs : ∀ c ∈ '(' :: '0' :: '1' :: ')' :: d.toList, c ≠ gsChar := by
    intro c hc
    simp only [List.mem_cons] at hc
    rcases hc with rfl | rfl | rfl | rfl | hc
    · decide
    · decide
    · decide
    · decide
    · exact ne_gsChar_of_digit c (hd c hc)
  have hnotall : ¬ (('(' :: '0' :: '1' :: ')' :: d.toList).all Char.isDigit = true) := by
    intro hall
    exact absurd (List.all_eq_true.mp hall '(' (by simp)) (by decide)
  have hscan : scanFor ("(01)".toList) extractGtinDigits ('(' :: '0' :: '1' :: ')' :: d.toList)
      = some d.toList := by
    simp only [scanFor]
    rw [if_pos (by simp [hasPrefixChars])]
    have hex : extractGtinDigits (('(' :: '0' :: '1' :: ')' :: d.toList).drop
        ("(01)".toList).length) = some d.toList := by
      have hdrop : ('(' :: '0' :: '1' :: ')' :: d.toList).drop ("(01)".toList).length
          = d.toList := rfl
      rw [hdrop]
      simp only [extractGtinDigits, digitRun_of_all_digits d.toList hd]
      rw [if_pos h12, List.take_of_length_le h14]
    rw [hex]
  simp only [parseGS1]
  rw [if_neg hne]
  rw [hcs, jsTrimList_of_no_ws _ hws, map_gsSwap_of_no_gs _ hgs]
  rw [if_neg (fun hcond => hnotall hcond.1)]
  simp only [parseRest]
  rw [if_neg (fun hcond => hnotall (by rw [toList_mk] at hcond; exact hcond.1))]
  rw [if_neg (fun hcond => by
    have hcf := hcond.1
    rw [toList_mk] at hcf
    simp [List.contains_cons] at hcf)]
  rw [(extractFields_of_gtin_some _ _ today d.toList (by rw [toList_mk]; exact hscan)).1]

/-- Claim C8: for every 12–14 digit string `d` supplied inside AI (01),
decoding is idempotent with respect to the 14-digit canonical form:
decoding the `gtin14` produced by decoding `d` yields the same `gtin14`. -/
theorem claim_c8_idempotent (d : String) (today : Int)
    (hd : ∀ c ∈ d.toList, c.isDigit = true)
    (h12 : 12 ≤ d.toList.length) (h14 : d.toList.length ≤ 14) :
    (parseGS1 (some ("(01)" ++ (parseGS1 (some ("(01)" ++ d)) today).gtin14)) today).gtin14
      = (parseGS1 (some ("(01)" ++ d)) today).gtin14 := by
  have h1 := parseGS1_gtin_wrapped d today hd h12 h14
  rw [h1]
  have hg : ∀ c ∈ (String.mk (padList d.toList 14)).toList, c.isDigit = true := by
    intro c hc
    rw [toList_mk, padList] at hc
    rcases List.mem_append.mp hc with h | h
    · rw [List.eq_of_mem_replicate h]
      decide
    · exact hd c h
  have hlen2 : (padList d.toList 14).length = 14 := by
    rw [padList_length]
    omega
  have h2 := parseGS1_gtin_wrapped (String.mk (padList d.toList 14)) today hg
    (by rw [toList_mk]; omega) (by rw [toList_mk]; omega)
  rw [h2, toList_mk, padList_of_length_le _ _ (by omega)]

theorem claim_c8_witness :
    (parseGS1 (some ("(01)" ++ (parseGS1 (some ("(01)" ++ "5012345678900")) 0).gtin14)) 0).gtin14
      = (parseGS1 (some ("(01)" ++ "5012345678900")) 0).gtin14 :=
  claim_c8_idempotent "5012345678900" 0 (by decide) (by decide) (by decide)

/-! ### Last-8 bucket accumulation -/

theorem lookupLast8_pushLast8 (m : Last8Map) (k k2 : String) (e : Last8Entry) :
    (lookupLast8 (pushLast8 m k e) k2).getD []
      = (if k = k2 then (lookupLast8 m k2).getD [] ++ [e]
         else (lookupLast8 m k2).getD []) := by
  induction m with
  | nil =>
    by_cases hk : k = k2
    · subst hk
      simp [pushLast8, lookupLast8, List.find?]
    · have hb : (k == k2) = false := beq_eq_false_iff_ne.mpr hk
      simp [pushLast8, lookupLast8, List.find?, hb, hk]
  | cons p t ih =>
    obtain ⟨k1, b⟩ := p
    by_cases hk1 : k1 = k
    · subst hk1
      have hb1 : (k1 == k1) = true := beq_self_eq_true k1
      by_cases hk2 : k1 = k2
      · subst hk2
        simp [pushLast8, lookupLast8, List.find?, hb1]
      · have hb2 : (k1 == k2) = false := beq_eq_false_iff_ne.mpr hk2
        simp [pushLast8, lookupLast8, List.find?, hb1, hb2, hk2]
    · have hb1 : (k1 == k) = false := beq_eq_false_iff_ne.mpr hk1
      by_cases hk2 : k1 = k2
      · subst hk2
        have hkk : ¬ (k = k1) := fun he => hk1 he.symm
        have hb2 : (k1 == k1) = true := beq_self_eq_true k1
        simp [pushLast8, lookupLast8, List.find?, hb1, hb2, hkk]
      · have hb2 : (k1 == k2) = false := beq_eq_false_iff_ne.mpr hk2
        simp only [pushLast8, lookupLast8, List.find?, hb1, hb2] at ih ⊢
        simpa [lookupLast8] using ih

theorem indexEntry_last8 (idx : MasterIndex) (b n : String) :
    (indexEntry idx b n).last8 =
      (if digitsOf b = "" then idx.last8
       else if (digitsOf b).toList.length = 8 ∨ (digitsOf b).toList.length = 12
           ∨ (digitsOf b).toList.length = 13 ∨ (digitsOf b).toList.length = 14 then
         pushLast8 idx.last8 (lastNStr (padStartStr (digitsOf b) 14) 8)
           { barcode := digitsOf b, name := n }
       else if 8 ≤ (digitsOf b).toList.length then
         pushLast8 idx.last8 (lastNStr (digitsOf b) 8) { barcode := digitsOf b, name := n }
       else idx.last8) := by
  simp only [indexEntry]
  split
  · rfl
  · by_cases hg : (digitsOf b).toList.length = 8 ∨ (digitsOf b).toList.length = 12
        ∨ (digitsOf b).toList.length = 13 ∨ (digitsOf b).toList.length = 14
    · simp only [if_pos hg]
      split <;> rfl
    · by_cases h8 : 8 ≤ (digitsOf b).toList.length
      · simp only [if_neg hg, if_pos h8]
        split <;> rfl
      · simp only [if_neg hg, if_neg h8]
        split <;> rfl

theorem last8_getD_buildStep (idx : MasterIndex) (b n k : String) :
    (lookupLast8 (indexEntry idx b n).last8 k).getD []
      = (lookupLast8 idx.last8 k).getD [] ++ bucketContrib b n k := by
  rw [indexEntry_last8]
  simp only [bucketContrib]
  split
  · simp
  · split
    · rw [lookupLast8_pushLast8]
      split <;> simp_all
    · split
      · rw [lookupLast8_pushLast8]
        split <;> simp_all
      · simp

theorem last8_getD_build (catalog : List (String × String)) (idx : MasterIndex) (k : String) :
    (lookupLast8 ((catalog.foldl (fun i p => indexEntry i p.1 p.2) idx)).last8 k).getD []
      = (lookupLast8 idx.last8 k).getD [] ++ bucketOf catalog k := by
  induction catalog generalizing idx with
  | nil => simp [bucketOf]
  | cons p t ih =>
    simp only [List.foldl_cons, bucketOf]
    rw [ih, last8_getD_buildStep, List.append_assoc]

/-- The step-4 match on a bucket lookup depends only on the bucket list
(with an absent key behaving as an empty bucket). -/
theorem s4_of_getD (m : Last8Map) (k : String) :
    (match lookupLast8 m k with
     | some (e :: []) => some { name := e.name, type := MatchType.LAST8 }
     | some (e :: _ :: _) => some { name := e.name, type := MatchType.AMBIG }
     | _ => none : Option MatchResult)
    = (match (lookupLast8 m k).getD [] with
       | ([] : List Last8Entry) => none
       | e :: [] => some { name := e.name, type := MatchType.LAST8 }
       | e :: _ :: _ => some { name := e.name, type := MatchType.AMBIG } : Option MatchResult) := by
  cases lookupLast8 m k with
  | none => rfl
  | some b =>
    cases b with
    | nil => rfl
    | cons e t => cases t <;> rfl

/-- When all four exact-lookup steps miss and the query has at least 8
digits, the match is decided by the last-8 bucket list (empty bucket or
absent key: fall through to the padding loop; one entry: LAST8; several:
AMBIG with the first entry). -/
theorem matchProduct_bucket (idx : MasterIndex) (gtin14 gtin13 : Option String)
    (h8 : 8 ≤ (digitsOf (gtin14.getD "")).toList.length)
    (h1 : lookupExact idx.exact (digitsOf (gtin14.getD "")) = none)
    (h1b : digitsOf (gtin13.getD "") = ""
        ∨ lookupExact idx.exact (digitsOf (gtin13.getD "")) = none)
    (h2 : lookupExact idx.exact (padStartStr (digitsOf (gtin14.getD "")) 14) = none)
    (h3 : stripLeadingZerosStr (digitsOf (gtin14.getD "")) = ""
        ∨ lookupExact idx.exact (stripLeadingZerosStr (digitsOf (gtin14.getD ""))) = none) :
    matchProduct idx gtin14 gtin13 =
      (match (lookupLast8 idx.last8 (lastNStr (digitsOf (gtin14.getD "")) 8)).getD [] with
       | ([] : List Last8Entry) =>
         ((if 5 ≤ (digitsOf (gtin14.getD "")).toList.length
              ∧ (digitsOf (gtin14.getD "")).toList.length ≤ 11 then
             tryPads idx.exact (digitsOf (gtin14.getD ""))
               (List.range' (digitsOf (gtin14.getD "")).toList.length
                 (15 - (digitsOf (gtin14.getD "")).toList.length))
           else none).getD { name := "", type := MatchType.NONE })
       | e :: [] => { name := e.name, type := MatchType.LAST8 }
       | e :: _ :: _ => { name := e.name, type := MatchType.AMBIG }) := by
  have hne14 : digitsOf (gtin14.getD "") ≠ "" := by
    intro he
    rw [he] at h8
    simp at h8
  simp only [matchProduct]
  rw [if_neg hne14, if_pos h8]
  simp only [exactHit, h1, h2, Option.map_none']
  rw [s4_of_getD]
  have hs1b : (if digitsOf (gtin13.getD "") = "" then none
      else Option.map (fun n => { name := n, type := MatchType.EXACT }) (lookupExact idx.exact (digitsOf (gtin13.getD "")))) = (none : Option MatchResult) := by
    rcases h1b with he | hl
    · rw [if_pos he]
    · rw [hl]
      simp
  have hs3 : (if stripLeadingZerosStr (digitsOf (gtin14.getD "")) = "" then none
      else Option.map (fun n => { name := n, type := MatchType.EXACT })
        (lookupExact idx.exact (stripLeadingZerosStr (digitsOf (gtin14.getD ""))))) = (none : Option MatchResult) := by
    rcases h3 with he | hl
    · rw [if_pos he]
    · rw [hl]
      simp
  rw [hs1b, hs3]
  cases hb : (lookupLast8 idx.last8 (lastNStr (digitsOf (gtin14.getD "")) 8)).getD [] with
  | nil => simp [Option.orElse]
  | cons e t =>
    cases t with
    | nil => simp [Option.orElse]
    | cons f t2 => simp [Option.orElse]

/-- Claim C2: over any catalog and any query whose digit-stripped `gtin14`
has at least 8 digits and misses every exact-lookup step, the matcher is
decided by the last-8 bucket accumulated in catalog insertion order: an
empty or absent bucket falls through to the padding loop, a singleton
bucket gives LAST8 with that entry's name, and a larger bucket gives
AMBIG with the name of the entry inserted first. -/
theorem claim_c2_last8_buckets (catalog : List (String × String))
    (gtin14 gtin13 : Option String)
    (h8 : 8 ≤ (digitsOf (gtin14.getD "")).toList.length)
    (h1 : lookupExact (buildMasterIndex catalog).exact (digitsOf (gtin14.getD "")) = none)
    (h1b : digitsOf (gtin13.getD "") = ""
        ∨ lookupExact (buildMasterIndex catalog).exact (digitsOf (gtin13.getD "")) = none)
    (h2 : lookupExact (buildMasterIndex catalog).exact
        (padStartStr (digitsOf (gtin14.getD "")) 14) = none)
    (h3 : stripLeadingZerosStr (digitsOf (gtin14.getD "")) = ""
        ∨ lookupExact (buildMasterIndex catalog).exact
            (stripLeadingZerosStr (digitsOf (gtin14.getD ""))) = none) :
    matchProduct (buildMasterIndex catalog) gtin14 gtin13 =
      (match bucketOf catalog (lastNStr (digitsOf (gtin14.getD "")) 8) with
       | ([] : List Last8Entry) =>
         ((if 5 ≤ (digitsOf (gtin14.getD "")).toList.length
              ∧ (digitsOf (gtin14.getD "")).toList.length ≤ 11 then
             tryPads (buildMasterIndex catalog).exact (digitsOf (gtin14.getD ""))
               (List.range' (digitsOf (gtin14.getD "")).toList.length
                 (15 - (digitsOf (gtin14.getD "")).toList.length))
           else none).getD { name := "", type := MatchType.NONE })
       | e :: [] => { name := e.name, type := MatchType.LAST8 }
       | e :: _ :: _ => { name := e.name, type := MatchType.AMBIG }) := by
  have hkey : (lookupLast8 (buildMasterIndex catalog).last8
      (lastNStr (digitsOf (gtin14.getD "")) 8)).getD []
      = bucketOf catalog (lastNStr (digitsOf (gtin14.getD "")) 8) := by
    have h := last8_getD_build catalog { exact := [], last8 := [] }
      (lastNStr (digitsOf (gtin14.getD "")) 8)
    simpa [buildMasterIndex, lookupLast8, List.find?] using h
  rw [matchProduct_bucket (buildMasterIndex catalog) gtin14 gtin13 h8 h1 h1b h2 h3, hkey]

theorem claim_c2_witness :
    matchProduct (buildMasterIndex [("10000012345678", "A"), ("20000012345678", "B")])
      (some "99990012345678") none = { name := "A", type := MatchType.AMBIG } := by
  have h := claim_c2_last8_buckets [("10000012345678", "A"), ("20000012345678", "B")]
    (some "99990012345678") none (by decide) (by decide) (by decide) (by decide) (by decide)
  exact h.trans (by decide)

end HybridTrack


